import Mathlib

/-!
Verification development for the GASpy_regressions fingerprinting module
(gaspy_regress/fingerprinters.py).

The module turns catalog/adsorption documents into fixed-width numeric
vectors.  We embed the record-level computations shallowly:

* numeric values (adsorption energies, atomic numbers, electronegativities,
  atom counts) are rationals;
* Python dictionaries keyed by element symbols become functions
  `String → Option _` (a `none` lookup models a `KeyError`);
* fallible computations return `Option`, `none` modelling a raised
  exception;
* `str.split` on a one-character separator is re-implemented over
  `List Char` so that it is kernel-computable.
-/

/-- One step of splitting a character list on a separator character.
Models Python `str.split(sep)` for a single-character separator:
the empty string yields `[[]]`, i.e. one empty field. -/
def splitChars (sep : Char) : List Char → List (List Char)
  | [] => [[]]
  | c :: cs =>
    let rest := splitChars sep cs
    if c = sep then [] :: rest
    else
      match rest with
      | [] => [[c]]
      | grp :: grps => (c :: grp) :: grps

/-- Python `s.split(sep)` for a one-character separator `sep`. -/
def strSplit (s : String) (sep : Char) : List String :=
  (splitChars sep s.toList).map List.asString

/-- A Mongo-style document, with the fields the fingerprinters read:
`mpid`, `coordination` (element symbols joined by dashes),
`neighborcoord` (strings of the form `X:A-B-C`), and, for adsorption
documents, `energy`. -/
structure Doc where
  mpid : String
  coordination : String
  neighborcoord : List String
  energy : ℚ
deriving DecidableEq

/-- A single 1x4 fingerprint block: (median adsorption energy, atomic
number, Pauling electronegativity, atom count). -/
abbrev FPTuple := ℚ × ℚ × ℚ × ℚ

/-- The lexicographic sort key of a 4-tuple.  Python compares tuples
lexicographically, first component first; `sorted(fingerprint)` orders the
1x4 blocks by this key. -/
def fpKey (t : FPTuple) : Lex (ℚ × Lex (ℚ × Lex (ℚ × ℚ))) :=
  toLex (t.1, toLex (t.2.1, toLex (t.2.2.1, t.2.2.2)))

/-- Python's ascending tuple order on 1x4 fingerprint blocks. -/
def fpLe (a b : FPTuple) : Prop := fpKey a ≤ fpKey b

instance : DecidableRel fpLe :=
  fun a b => inferInstanceAs (Decidable (fpKey a ≤ fpKey b))

instance : IsTrans FPTuple fpLe where
  trans _ _ _ h1 h2 := le_trans (α := Lex (ℚ × Lex (ℚ × Lex (ℚ × ℚ)))) h1 h2

instance : IsTotal FPTuple fpLe where
  total a b := le_total (fpKey a) (fpKey b)

instance : IsAntisymm FPTuple fpLe where
  antisymm a b h1 h2 := by
    have hk : fpKey a = fpKey b :=
      le_antisymm (α := Lex (ℚ × Lex (ℚ × Lex (ℚ × ℚ)))) h1 h2
    obtain ⟨a1, a2, a3, a4⟩ := a
    obtain ⟨b1, b2, b3, b4⟩ := b
    simp only [fpKey, toLex_inj, Prod.mk.injEq] at hk
    obtain ⟨e1, e2, e3, e4⟩ := hk
    simp [e1, e2, e3, e4]

/-- The per-fingerprinter state that `Fingerprinter.__init__` precomputes
before any document is fingerprinted: the three element-keyed tables
(`median_adsorption_energies`, Mendeleev atomic numbers and
electronegativities), the dummy block `dummy_fp`, and `max_num_species`. -/
structure FingerprinterData where
  median_adsorption_energies : String → Option ℚ
  atomic_number : String → Option ℚ
  electronegativity : String → Option ℚ
  dummy_fp : FPTuple
  max_num_species : ℕ

/-- The 1x4 block built for one element of the (inner or outer) shell:
its median adsorption energy, atomic number, electronegativity, and its
number of occurrences in `atoms`.  A missing table entry is a `KeyError`,
modelled by `none`. -/
def elementTuple (fp : FingerprinterData) (atoms : List String)
    (element : String) : Option FPTuple :=
  match fp.median_adsorption_energies element, fp.atomic_number element,
      fp.electronegativity element with
  | some energy, some atomic_num, some electroneg =>
    some (energy, atomic_num, electroneg, (atoms.count element : ℚ))
  | _, _, _ => none

/-- Runs `f` over a list of elements, collecting the blocks; any failed
lookup aborts the whole computation (the Python loop raises). -/
def lookupTuples (f : String → Option FPTuple) : List String → Option (List FPTuple)
  | [] => some []
  | e :: es =>
    match f e, lookupTuples f es with
    | some t, some ts => some (t :: ts)
    | _, _ => none

/-- The unsorted list of 1x4 blocks for the distinct elements of `atoms`
(Python iterates over `set(binding_atoms)`; the subsequent sort makes the
iteration order irrelevant, so we iterate over `atoms.dedup`). -/
def raw_tuples (fp : FingerprinterData) (atoms : List String) :
    Option (List FPTuple) :=
  lookupTuples (elementTuple fp atoms) atoms.dedup

/-- Right-pads a block list with copies of `dummy_fp` until it has
`max_num_species` entries; Python's `for _ in range(len(fingerprint),
self.max_num_species)` appends nothing when the list is already too long. -/
def padTuples (fp : FingerprinterData) (ts : List FPTuple) : List FPTuple :=
  ts ++ List.replicate (fp.max_num_species - ts.length) fp.dummy_fp

/-- The four scalars of one block, in order. -/
def fpToList (t : FPTuple) : List ℚ := [t.1, t.2.1, t.2.2.1, t.2.2.2]

/-- `np.array(fingerprint).flatten()`: a list of 1x4 blocks becomes one
flat scalar list. -/
def flattenTuples (ts : List FPTuple) : List ℚ :=
  (ts.map fpToList).flatten

/-- The record-level assembly shared verbatim by the inner- and
outer-shell fingerprinters (lines 262-283 and 318-335 of
fingerprinters.py): build one block per distinct element, sort the blocks
in ascending tuple order, pad with dummy blocks, flatten. -/
def assemble_fingerprint (fp : FingerprinterData) (atoms : List String) :
    Option (List ℚ) :=
  (raw_tuples fp atoms).map fun tuples =>
    flattenTuples (padTuples fp (List.insertionSort fpLe tuples))

namespace InnerShellFingerprinter

/-- `doc['coordination'].split('-')`, with the hacky reformat: a
coordination of `''` splits to `['']`, which the code replaces by `[]`. -/
def binding_atoms (doc : Doc) : List String :=
  let atoms := strSplit doc.coordination '-'
  if atoms = [""] then [] else atoms

/-- `InnerShellFingerprinter.fingerprint_doc`: fingerprint the directly
coordinated (inner shell) atoms of a document. -/
def fingerprint_doc (fp : FingerprinterData) (doc : Doc) : Option (List ℚ) :=
  assemble_fingerprint fp (binding_atoms doc)

end InnerShellFingerprinter

namespace OuterShellFingerprinter

/-- One entry of `neighborcoord` is split on a colon; Python's
`_, coordination = neighbor_coordination.split(':')` requires exactly two
parts (else `ValueError`), keeps the second and splits it on dashes. -/
def neighbor_atoms (neighbor_coordination : String) : Option (List String) :=
  match strSplit neighbor_coordination ':' with
  | [_, coordination] => some (strSplit coordination '-')
  | _ => none

/-- `OuterShellFingerprinter._concatenate_second_shell` over the raw
`neighborcoord` list: concatenates the second-shell atoms of every
binding atom, with intentional redundant counting. -/
def second_shell_atoms : List String → Option (List String)
  | [] => some []
  | nc :: rest =>
    match neighbor_atoms nc, second_shell_atoms rest with
    | some atoms, some more => some (atoms ++ more)
    | _, _ => none

/-- `_concatenate_second_shell(doc)`. -/
def concatenate_second_shell (doc : Doc) : Option (List String) :=
  second_shell_atoms doc.neighborcoord

/-- `OuterShellFingerprinter.fingerprint_doc`: fingerprint the second
shell (next-neighbor) atoms of a document. -/
def fingerprint_doc (fp : FingerprinterData) (doc : Doc) : Option (List ℚ) :=
  match concatenate_second_shell doc with
  | some atoms => assemble_fingerprint fp atoms
  | none => none

end OuterShellFingerprinter

namespace StackedFingerprinter

/-- `StackedFingerprinter.fingerprint_doc`: apply every registered
sub-fingerprinter to the document and concatenate the results in
registration order (`np.concatenate` raises on an empty tuple, hence
`none` for an empty fingerprinter list). -/
def fingerprint_doc (fingerprinters : List (Doc → List ℚ)) (doc : Doc) :
    Option (List ℚ) :=
  match fingerprinters with
  | [] => none
  | fps => some ((fps.map fun fingerprinter => fingerprinter doc).flatten)

end StackedFingerprinter

/-- The energies of the adsorption documents hosted on a monometallic
material consisting exactly of `element` (the `len(composition) == 1 and
composition[0] == element` filter). -/
def monometallic_energies (adsorption_docs : List Doc)
    (compositions_by_mpid : String → List String) (element : String) :
    List ℚ :=
  (adsorption_docs.filter
    fun doc => compositions_by_mpid doc.mpid == [element]).map Doc.energy

/-- `np.median`: `none` on an empty list (NaN); otherwise the middle of the
sorted list, or the mean of the two middles for even length. -/
def np_median (energies : List ℚ) : Option ℚ :=
  match energies with
  | [] => none
  | _ =>
    let s := List.insertionSort (fun a b : ℚ => a ≤ b) energies
    let n := energies.length
    if n % 2 = 1 then some (s.getD (n / 2) 0)
    else some ((s.getD (n / 2 - 1) 0 + s.getD (n / 2) 0) / 2)

/-- The body of the per-element loop of
`Fingerprinter._calculate_median_adsorption_energies`: the median of the
element's monometallic adsorption energies; when that median is NaN (no
data), fall back to the median over all adsorption energies and record
that a warning naming the element was emitted (the Boolean). -/
def median_adsorption_energy_of (adsorption_docs : List Doc)
    (compositions_by_mpid : String → List String) (element : String) :
    Option ℚ × Bool :=
  match np_median (monometallic_energies adsorption_docs compositions_by_mpid element) with
  | some median => (some median, false)
  | none => (np_median (adsorption_docs.map Doc.energy), true)

/-- The `median_adsorption_energies` table built by
`_calculate_median_adsorption_energies`, as an association list over the
elements in scope. -/
def calculate_median_adsorption_energies (elements : List String)
    (adsorption_docs : List Doc)
    (compositions_by_mpid : String → List String) :
    List (String × Option ℚ) :=
  elements.map fun element =>
    (element, (median_adsorption_energy_of adsorption_docs compositions_by_mpid element).1)

/-- The elements for which `_calculate_median_adsorption_energies` emits
its warning-level diagnostic (the diagnostic message names the element). -/
def median_warnings (elements : List String) (adsorption_docs : List Doc)
    (compositions_by_mpid : String → List String) : List String :=
  elements.filter fun element =>
    (median_adsorption_energy_of adsorption_docs compositions_by_mpid element).2

/-- Models the cache persistence of `_get_compositions_by_mpid` (lines
114-124): `open(path, 'wb')` truncates the cache file in place, and
`pickle.dump` then writes the serialized bytes sequentially to it.
`data` is the serialization of the updated mapping, `crashAt = some k`
models a failure after `k` bytes were written, `none` a completed write;
the result is the file content afterwards.  The old content is destroyed
by the truncating open before the first byte is written. -/
def write_cache (data : List ℕ) (crashAt : Option ℕ)
    (oldFile : Option (List ℕ)) : Option (List ℕ) :=
  match crashAt with
  | none => some data
  | some k => some (data.take k)

/-! Concrete fixtures used to evaluate the definitions on small inputs. -/

/-- Fixture: a fingerprinter state whose tables know the elements Cu and
Al, with a dummy block that sorts before every real block, and room for
three species. -/
def fpFix : FingerprinterData where
  median_adsorption_energies := fun e =>
    if e = "Cu" then some 1 else if e = "Al" then some 2 else none
  atomic_number := fun e =>
    if e = "Cu" then some 29 else if e = "Al" then some 13 else none
  electronegativity := fun e =>
    if e = "Cu" then some 9 else if e = "Al" then some 8 else none
  dummy_fp := (0, 0, 0, 0)
  max_num_species := 3

/-- Fixture: the same tables, but a maximum width of one species. -/
def fpNarrow : FingerprinterData :=
  { fpFix with max_num_species := 1 }

/-- Fixture documents. -/
def docCuCuAl : Doc := ⟨"mp-30", "Cu-Cu-Al", [], 0⟩

/-- Fixture: the same coordination atoms as `docCuCuAl`, listed in
another order. -/
def docAlCuCu : Doc := ⟨"mp-30", "Al-Cu-Cu", [], 0⟩

/-- Fixture: two distinct coordinated elements. -/
def docCuAl : Doc := ⟨"mp-30", "Cu-Al", [], 0⟩

/-- Fixture: an empty coordination string. -/
def docEmptyCoord : Doc := ⟨"mp-30", "", [], 0⟩

/-- Fixture: a document with second-shell data. -/
def docSecondShell : Doc := ⟨"mp-30", "Cu", ["Cu:Cu-Al", "Al:Cu-Cu"], 0⟩

/-- Fixture: same coordination as `docCuCuAl`, every other field
different. -/
def docOtherFields : Doc := ⟨"mp-999", "Cu-Cu-Al", ["Pt:Pt-Pt"], 5⟩

/-- Fixture: the real blocks of `docCuCuAl` under `fpFix`. -/
def rawCuCuAl : List FPTuple := [(1, 29, 9, 2), (2, 13, 8, 1)]

/-- Fixture: the real blocks of `docCuAl` under `fpFix`. -/
def rawCuAl : List FPTuple := [(1, 29, 9, 1), (2, 13, 8, 1)]

/-- Fixture: the real blocks of `docSecondShell`'s second shell under
`fpFix`, in the element-enumeration order of `List.dedup`. -/
def rawSecondShell : List FPTuple := [(2, 13, 8, 1), (1, 29, 9, 3)]

/-- Fixture adsorption documents: one on the monometallic Cu material
`mp-1`, one on the bimetallic `mp-2`, so Al has no monometallic data. -/
def adsDocsFix : List Doc := [⟨"mp-1", "", [], 1⟩, ⟨"mp-2", "", [], 3⟩]

/-- Fixture composition table for `adsDocsFix`. -/
def compFix : String → List String :=
  fun mpid => if mpid = "mp-1" then ["Cu"] else ["Cu", "Al"]

/-- Fixture element scope. -/
def elementsFix : List String := ["Cu", "Al"]

/-! Helper lemmas. -/

theorem fpLe_fst {a b : FPTuple} (h : fpLe a b) : a.1 ≤ b.1 := by
  have h' : toLex (a.1, toLex (a.2.1, toLex (a.2.2.1, a.2.2.2))) ≤
      toLex (b.1, toLex (b.2.1, toLex (b.2.2.1, b.2.2.2))) := h
  rcases (Prod.Lex.le_iff _ _).mp h' with hlt | ⟨heq, _⟩
  · exact le_of_lt hlt
  · exact le_of_eq heq

theorem lookupTuples_length {f : String → Option FPTuple} :
    ∀ {l : List String} {ts : List FPTuple},
      lookupTuples f l = some ts → ts.length = l.length := by
  intro l
  induction l with
  | nil => intro ts h; simp [lookupTuples] at h; simp [h.symm]
  | cons a as ih =>
    intro ts h
    rw [lookupTuples] at h
    cases hfa : f a with
    | none => rw [hfa] at h; exact absurd h (by simp)
    | some t =>
      cases hrest : lookupTuples f as with
      | none => rw [hfa, hrest] at h; exact absurd h (by simp)
      | some us =>
        rw [hfa, hrest] at h
        obtain rfl : t :: us = ts := by simpa using h
        simp [ih hrest]

theorem lookupTuples_map {f : String → Option FPTuple} :
    ∀ {l : List String}, (∀ e ∈ l, (f e).isSome) →
      lookupTuples f l = some (l.map fun e => (f e).getD (0, 0, 0, 0)) := by
  intro l
  induction l with
  | nil => intro; rfl
  | cons a as ih =>
    intro h
    obtain ⟨t, ht⟩ := Option.isSome_iff_exists.mp (h a (by simp))
    rw [lookupTuples, ht, ih (fun e he => h e (by simp [he]))]
    simp [ht]

theorem lookupTuples_eq_none {f : String → Option FPTuple} {e : String} :
    ∀ {l : List String}, e ∈ l → f e = none → lookupTuples f l = none := by
  intro l
  induction l with
  | nil => intro h; simp at h
  | cons a as ih =>
    intro hmem hnone
    rcases List.mem_cons.mp hmem with rfl | hmem'
    · rw [lookupTuples, hnone]
    · rw [lookupTuples, ih hmem' hnone]
      cases f a <;> rfl

theorem flattenTuples_length (ts : List FPTuple) :
    (flattenTuples ts).length = 4 * ts.length := by
  induction ts with
  | nil => rfl
  | cons t ts ih =>
    simp only [flattenTuples, List.map_cons, List.flatten_cons,
      List.length_append, List.length_cons] at ih ⊢
    simp [fpToList] at ih ⊢
    omega

theorem flattenTuples_append (xs ys : List FPTuple) :
    flattenTuples (xs ++ ys) = flattenTuples xs ++ flattenTuples ys := by
  simp [flattenTuples]

theorem insertionSort_fpLe_length (l : List FPTuple) :
    (List.insertionSort fpLe l).length = l.length :=
  (List.perm_insertionSort fpLe l).length_eq

/-- The core length fact about the shared assembly: when the number of
distinct-element blocks is at most `max_num_species`, the assembled
vector exists and has exactly `4 * max_num_species` scalars. -/
theorem assemble_fingerprint_length (fp : FingerprinterData)
    (atoms : List String) (raw : List FPTuple)
    (h : raw_tuples fp atoms = some raw)
    (hle : raw.length ≤ fp.max_num_species) :
    ∃ v, assemble_fingerprint fp atoms = some v ∧
      v.length = 4 * fp.max_num_species := by
  refine ⟨flattenTuples (padTuples fp (List.insertionSort fpLe raw)), ?_, ?_⟩
  · simp [assemble_fingerprint, h]
  · rw [flattenTuples_length]
    simp only [padTuples, List.length_append, List.length_replicate,
      insertionSort_fpLe_length]
    omega

/-! Claim theorems. -/

/-- Claim C1: for every record whose inner shell (coordination) or outer
shell (second shell) contains at most `max_num_species` distinct elements
(all of them known to the precomputed tables, so that `raw_tuples`
succeeds), `fingerprint_doc` returns a flat numeric vector of length
exactly `4 * max_num_species`; this length does not depend on the record,
so it is the same for every record fingerprinted by the same
fingerprinter state. -/
theorem C1_fixed_length (fp : FingerprinterData) (doc : Doc) :
    (∀ raw, raw_tuples fp (InnerShellFingerprinter.binding_atoms doc) = some raw →
      (InnerShellFingerprinter.binding_atoms doc).dedup.length ≤ fp.max_num_species →
      ∃ v, InnerShellFingerprinter.fingerprint_doc fp doc = some v ∧
        v.length = 4 * fp.max_num_species) ∧
    (∀ atoms raw, OuterShellFingerprinter.concatenate_second_shell doc = some atoms →
      raw_tuples fp atoms = some raw →
      atoms.dedup.length ≤ fp.max_num_species →
      ∃ v, OuterShellFingerprinter.fingerprint_doc fp doc = some v ∧
        v.length = 4 * fp.max_num_species) := by
  constructor
  · intro raw h hle
    have hlen : raw.length = (InnerShellFingerprinter.binding_atoms doc).dedup.length :=
      lookupTuples_length h
    exact assemble_fingerprint_length fp _ raw h (hlen ▸ hle)
  · intro atoms raw hshell h hle
    have hlen : raw.length = atoms.dedup.length := lookupTuples_length h
    obtain ⟨v, hv, hvlen⟩ := assemble_fingerprint_length fp atoms raw h (hlen ▸ hle)
    exact ⟨v, by simp [OuterShellFingerprinter.fingerprint_doc, hshell, hv], hvlen⟩

/-- Witness for C1 at concrete inputs: an inner-shell record with
coordination Cu-Cu-Al and an outer-shell record, both under `fpFix`
(maximum width 3). -/
theorem C1_fixed_length_witness :
    (∃ v, InnerShellFingerprinter.fingerprint_doc fpFix docCuCuAl = some v ∧
      v.length = 4 * fpFix.max_num_species) ∧
    (∃ v, OuterShellFingerprinter.fingerprint_doc fpFix docSecondShell = some v ∧
      v.length = 4 * fpFix.max_num_species) :=
  ⟨(C1_fixed_length fpFix docCuCuAl).1 rawCuCuAl (by decide) (by decide),
   (C1_fixed_length fpFix docSecondShell).2 ["Cu", "Al", "Cu", "Cu"] rawSecondShell
     (by decide) (by decide) (by decide)⟩

/-- Claim C2 counterexample: under `fpNarrow` (maximum width 1) the
record with coordination Cu-Al has 2 > 1 distinct elements, yet
`fingerprint_doc` does not fail: it returns a vector (of 8 scalars, not
4).  The padding loop `for _ in range(len(fingerprint),
self.max_num_species)` simply runs zero times. -/
theorem C2_counterexample :
    fpNarrow.max_num_species <
      (InnerShellFingerprinter.binding_atoms docCuAl).dedup.length ∧
    (InnerShellFingerprinter.fingerprint_doc fpNarrow docCuAl).isSome = true ∧
    (InnerShellFingerprinter.fingerprint_doc fpNarrow docCuAl).map List.length =
      some 8 := by decide

/-- Claim C2 amended: when a record's shell has more distinct elements
than `max_num_species`, no error is raised; `fingerprint_doc` returns an
unpadded vector of length `4 *` (number of distinct elements), which
exceeds `4 * max_num_species`. -/
theorem C2_no_raise_on_overflow (fp : FingerprinterData) (doc : Doc)
    (raw : List FPTuple)
    (h : raw_tuples fp (InnerShellFingerprinter.binding_atoms doc) = some raw)
    (hgt : fp.max_num_species < raw.length) :
    ∃ v, InnerShellFingerprinter.fingerprint_doc fp doc = some v ∧
      v.length = 4 * raw.length ∧ 4 * fp.max_num_species < v.length := by
  refine ⟨flattenTuples (padTuples fp (List.insertionSort fpLe raw)), ?_, ?_, ?_⟩
  · simp [InnerShellFingerprinter.fingerprint_doc, assemble_fingerprint, h]
  · rw [flattenTuples_length]
    simp only [padTuples, List.length_append, List.length_replicate,
      insertionSort_fpLe_length]
    omega
  · rw [flattenTuples_length]
    simp only [padTuples, List.length_append, List.length_replicate,
      insertionSort_fpLe_length]
    omega

/-- Witness for the amended C2 at a concrete input. -/
theorem C2_no_raise_on_overflow_witness :
    ∃ v, InnerShellFingerprinter.fingerprint_doc fpNarrow docCuAl = some v ∧
      v.length = 4 * rawCuAl.length ∧ 4 * fpNarrow.max_num_species < v.length :=
  C2_no_raise_on_overflow fpNarrow docCuAl rawCuAl (by decide) (by decide)

/-- Claim C3: the real (non-padded) blocks inside the returned inner-shell
fingerprint are exactly `List.insertionSort fpLe raw`, which is sorted in
ascending natural tuple order, and in particular non-decreasing in the
first component (the median adsorption energy). -/
theorem C3_sorted_blocks (fp : FingerprinterData) (doc : Doc)
    (raw : List FPTuple)
    (h : raw_tuples fp (InnerShellFingerprinter.binding_atoms doc) = some raw) :
    List.Sorted fpLe (List.insertionSort fpLe raw) ∧
    List.Pairwise (fun a b : FPTuple => a.1 ≤ b.1)
      (List.insertionSort fpLe raw) ∧
    InnerShellFingerprinter.fingerprint_doc fp doc =
      some (flattenTuples (padTuples fp (List.insertionSort fpLe raw))) := by
  refine ⟨List.sorted_insertionSort fpLe raw, ?_, ?_⟩
  · exact (List.sorted_insertionSort fpLe raw).imp fpLe_fst
  · simp [InnerShellFingerprinter.fingerprint_doc, assemble_fingerprint, h]

/-- Witness for C3 at a concrete input. -/
theorem C3_sorted_blocks_witness :
    List.Sorted fpLe (List.insertionSort fpLe rawCuCuAl) ∧
    List.Pairwise (fun a b : FPTuple => a.1 ≤ b.1)
      (List.insertionSort fpLe rawCuCuAl) ∧
    InnerShellFingerprinter.fingerprint_doc fpFix docCuCuAl =
      some (flattenTuples (padTuples fpFix (List.insertionSort fpLe rawCuCuAl))) :=
  C3_sorted_blocks fpFix docCuCuAl rawCuCuAl (by decide)

/-- Claim C4: the returned vector is the flattened real blocks followed by
the flattened padding; every padding slot equals the precomputed
`dummy_fp` exactly, and the padding occupies the tail of the vector, after
every real block — the dummy block is appended after the sort, so this
holds however `dummy_fp` would compare to the real blocks. -/
theorem C4_padding_tail (fp : FingerprinterData) (doc : Doc)
    (raw : List FPTuple)
    (h : raw_tuples fp (InnerShellFingerprinter.binding_atoms doc) = some raw) :
    ∃ pad, InnerShellFingerprinter.fingerprint_doc fp doc =
        some (flattenTuples (List.insertionSort fpLe raw) ++ flattenTuples pad) ∧
      (∀ t ∈ pad, t = fp.dummy_fp) ∧
      pad.length = fp.max_num_species - raw.length := by
  refine ⟨List.replicate (fp.max_num_species - raw.length) fp.dummy_fp, ?_, ?_, by simp⟩
  · have hpad : padTuples fp (List.insertionSort fpLe raw) =
        List.insertionSort fpLe raw ++
          List.replicate (fp.max_num_species - raw.length) fp.dummy_fp := by
      simp [padTuples, insertionSort_fpLe_length]
    rw [InnerShellFingerprinter.fingerprint_doc, assemble_fingerprint, raw_tuples] at *
    rw [h]
    simp [hpad, flattenTuples_append]
  · intro t ht
    exact List.eq_of_mem_replicate ht

/-- Witness for C4 at a concrete input whose dummy block sorts strictly
before both real blocks yet still lands at the tail. -/
theorem C4_padding_tail_witness :
    ∃ pad, InnerShellFingerprinter.fingerprint_doc fpFix docCuCuAl =
        some (flattenTuples (List.insertionSort fpLe rawCuCuAl) ++ flattenTuples pad) ∧
      (∀ t ∈ pad, t = fpFix.dummy_fp) ∧
      pad.length = fpFix.max_num_species - rawCuCuAl.length :=
  C4_padding_tail fpFix docCuCuAl rawCuCuAl (by decide)

/-- Claim C5: a record with an empty coordination string is fingerprinted
successfully (no error), and the result is entirely padding:
`max_num_species` copies of the dummy block, flattened. -/
theorem C5_empty_coordination (fp : FingerprinterData) (doc : Doc)
    (h : doc.coordination = "") :
    InnerShellFingerprinter.fingerprint_doc fp doc =
      some (flattenTuples (List.replicate fp.max_num_species fp.dummy_fp)) := by
  have hsplit : strSplit "" '-' = [""] := by decide
  have hatoms : InnerShellFingerprinter.binding_atoms doc = [] := by
    simp [InnerShellFingerprinter.binding_atoms, h, hsplit]
  simp [InnerShellFingerprinter.fingerprint_doc, assemble_fingerprint,
    raw_tuples, hatoms, lookupTuples, padTuples]

/-- Witness for C5 at a concrete input. -/
theorem C5_empty_coordination_witness :
    InnerShellFingerprinter.fingerprint_doc fpFix docEmptyCoord =
      some (flattenTuples (List.replicate fpFix.max_num_species fpFix.dummy_fp)) :=
  C5_empty_coordination fpFix docEmptyCoord rfl

theorem np_median_isSome (l : List ℚ) (h : l ≠ []) :
    ∃ m, np_median l = some m := by
  cases l with
  | nil => exact absurd rfl h
  | cons x xs =>
    unfold np_median
    dsimp only
    split
    · exact ⟨_, rfl⟩
    · exact ⟨_, rfl⟩

theorem lookup_map_pair {β : Type} (g : String → β) :
    ∀ {l : List String} {e : String}, e ∈ l →
      List.lookup e (l.map fun x => (x, g x)) = some (g e) := by
  intro l
  induction l with
  | nil => intro e h; simp at h
  | cons a as ih =>
    intro e h
    rcases List.mem_cons.mp h with rfl | h'
    · simp [List.lookup]
    · by_cases hea : e = a
      · simp [hea, List.lookup]
      · have hne : (e == a) = false := beq_eq_false_iff_ne.mpr hea
        rw [List.map_cons, List.lookup_cons, hne]
        exact ih h'

/-- Claim C6: an element in scope with no adsorption records on its
monometallic materials is assigned the median over all adsorption
energies (unfiltered by element) in the
`median_adsorption_energies` table, the warning diagnostic names the
element, and the computation succeeds with a value whenever there is at
least one adsorption record anywhere. -/
theorem C6_median_fallback (elements : List String)
    (adsorption_docs : List Doc)
    (compositions_by_mpid : String → List String) (element : String)
    (hmem : element ∈ elements)
    (hmono : monometallic_energies adsorption_docs compositions_by_mpid element = [])
    (hne : adsorption_docs ≠ []) :
    (∃ m, np_median (adsorption_docs.map Doc.energy) = some m ∧
      List.lookup element
        (calculate_median_adsorption_energies elements adsorption_docs
          compositions_by_mpid) = some (some m)) ∧
    element ∈ median_warnings elements adsorption_docs compositions_by_mpid := by
  have hnem : adsorption_docs.map Doc.energy ≠ [] := by
    simpa using hne
  obtain ⟨m, hm⟩ := np_median_isSome _ hnem
  have hof : median_adsorption_energy_of adsorption_docs compositions_by_mpid
      element = (some m, true) := by
    unfold median_adsorption_energy_of
    rw [hmono]
    have h0 : np_median ([] : List ℚ) = none := rfl
    rw [h0, hm]
  constructor
  · refine ⟨m, hm, ?_⟩
    rw [calculate_median_adsorption_energies,
      lookup_map_pair
        (fun e => (median_adsorption_energy_of adsorption_docs
          compositions_by_mpid e).1) hmem,
      hof]
  · rw [median_warnings]
    exact List.mem_filter.mpr ⟨hmem, by rw [hof]⟩

/-- Witness for C6 at a concrete input: under `adsDocsFix`, Al has no
monometallic records, and its table entry is the median of all
energies. -/
theorem C6_median_fallback_witness :
    (∃ m, np_median (adsDocsFix.map Doc.energy) = some m ∧
      List.lookup "Al"
        (calculate_median_adsorption_energies elementsFix adsDocsFix compFix) =
        some (some m)) ∧
    "Al" ∈ median_warnings elementsFix adsDocsFix compFix :=
  C6_median_fallback elementsFix adsDocsFix compFix "Al" (by decide) (by decide)
    (by decide)

/-- Claim C7: the stacked fingerprinter applied to sub-fingerprinters
[A, B] returns exactly the concatenation of A's and B's independently
computed fingerprints for the record, in registration order. -/
theorem C7_stacking (A B : Doc → List ℚ) (doc : Doc) :
    StackedFingerprinter.fingerprint_doc [A, B] doc = some (A doc ++ B doc) := by
  simp [StackedFingerprinter.fingerprint_doc]

/-- Claim C8 counterexample: the cache write is not atomic.  With the old
cache file holding bytes [1, 2, 3] and the new serialization [4, 5, 6], a
failure after one written byte leaves the file holding [4]: neither the
complete new data nor the intact old cache. -/
theorem C8_counterexample :
    write_cache [4, 5, 6] (some 1) (some [1, 2, 3]) = some [4] ∧
    write_cache [4, 5, 6] (some 1) (some [1, 2, 3]) ≠ some [1, 2, 3] ∧
    write_cache [4, 5, 6] (some 1) (some [1, 2, 3]) ≠ some [4, 5, 6] := by
  decide

/-- Claim C8 amended: the write is done in place through a truncating
open, so whatever happens, the file afterwards holds a prefix of the new
serialized data (the whole of it if the write completes, possibly empty
otherwise); the previously persisted cache does not survive a failed
write. -/
theorem C8_truncating_write (data : List ℕ) (crashAt : Option ℕ)
    (oldFile : Option (List ℕ)) :
    ∃ k, write_cache data crashAt oldFile = some (data.take k) := by
  cases crashAt with
  | none => exact ⟨data.length, by simp [write_cache]⟩
  | some k => exact ⟨k, rfl⟩

/-- Claim C9: the inner-shell fingerprint is invariant under permutation
of the atoms in the coordination string: two records whose parsed
coordination lists are permutations of each other (the same atoms as a
multiset) fingerprint identically — including the failure case. -/
theorem C9_permutation_invariance (fp : FingerprinterData) (d1 d2 : Doc)
    (h : (InnerShellFingerprinter.binding_atoms d1).Perm
      (InnerShellFingerprinter.binding_atoms d2)) :
    InnerShellFingerprinter.fingerprint_doc fp d1 =
      InnerShellFingerprinter.fingerprint_doc fp d2 := by
  have hfe : elementTuple fp (InnerShellFingerprinter.binding_atoms d1) =
      elementTuple fp (InnerShellFingerprinter.binding_atoms d2) := by
    funext e
    unfold elementTuple
    rw [h.count_eq e]
  have hd : (InnerShellFingerprinter.binding_atoms d1).dedup.Perm
      (InnerShellFingerprinter.binding_atoms d2).dedup := h.dedup
  unfold InnerShellFingerprinter.fingerprint_doc assemble_fingerprint raw_tuples
  rw [hfe]
  by_cases hall : ∀ e ∈ (InnerShellFingerprinter.binding_atoms d1).dedup,
      (elementTuple fp (InnerShellFingerprinter.binding_atoms d2) e).isSome
  · have hall2 : ∀ e ∈ (InnerShellFingerprinter.binding_atoms d2).dedup,
        (elementTuple fp (InnerShellFingerprinter.binding_atoms d2) e).isSome :=
      fun e he => hall e (hd.mem_iff.mpr he)
    rw [lookupTuples_map hall, lookupTuples_map hall2]
    have hperm :
        ((InnerShellFingerprinter.binding_atoms d1).dedup.map
          fun e => (elementTuple fp (InnerShellFingerprinter.binding_atoms d2) e).getD
            (0, 0, 0, 0)).Perm
        ((InnerShellFingerprinter.binding_atoms d2).dedup.map
          fun e => (elementTuple fp (InnerShellFingerprinter.binding_atoms d2) e).getD
            (0, 0, 0, 0)) := hd.map _
    have hsort := List.eq_of_perm_of_sorted
      ((List.perm_insertionSort fpLe _).trans
        (hperm.trans (List.perm_insertionSort fpLe _).symm))
      (List.sorted_insertionSort fpLe _) (List.sorted_insertionSort fpLe _)
    simp only [Option.map_some']
    rw [hsort]
  · have hex : ∃ e ∈ (InnerShellFingerprinter.binding_atoms d1).dedup,
        elementTuple fp (InnerShellFingerprinter.binding_atoms d2) e = none := by
      push_neg at hall
      obtain ⟨e, he, hne⟩ := hall
      exact ⟨e, he, Option.not_isSome_iff_eq_none.mp hne⟩
    obtain ⟨e, he, hnone⟩ := hex
    rw [lookupTuples_eq_none he hnone, lookupTuples_eq_none (hd.mem_iff.mp he) hnone]

/-- Witness for C9 at concrete inputs: Cu-Cu-Al versus Al-Cu-Cu. -/
theorem C9_permutation_invariance_witness :
    InnerShellFingerprinter.fingerprint_doc fpFix docCuCuAl =
      InnerShellFingerprinter.fingerprint_doc fpFix docAlCuCu :=
  C9_permutation_invariance fpFix docCuCuAl docAlCuCu (by decide)

/-- Claim C10: the inner-shell fingerprint reads only the record's
coordination field: two records agreeing on it fingerprint identically,
whatever their mpid, neighborcoord, or energy fields hold. -/
theorem C10_reads_only_coordination (fp : FingerprinterData) (d1 d2 : Doc)
    (h : d1.coordination = d2.coordination) :
    InnerShellFingerprinter.fingerprint_doc fp d1 =
      InnerShellFingerprinter.fingerprint_doc fp d2 := by
  unfold InnerShellFingerprinter.fingerprint_doc InnerShellFingerprinter.binding_atoms
  rw [h]

/-- Witness for C10 at concrete inputs: same coordination, different
mpid, neighborcoord and energy. -/
theorem C10_reads_only_coordination_witness :
    InnerShellFingerprinter.fingerprint_doc fpFix docCuCuAl =
      InnerShellFingerprinter.fingerprint_doc fpFix docOtherFields :=
  C10_reads_only_coordination fpFix docCuCuAl docOtherFields (by decide)
